import Mathlib

/-!
Verification of the core dictation pipeline of doubao-ime-mac.

Shallow embedding of the Rust sources:
ˑ `src/business/voice_controller.rs` (incremental diff `update_text`, the
  controller state machine and the ASR response loop),
ˑ `src/business/hotkey_manager.rs` (provider hot-swap),
ˑ `src/audio/capture.rs` (capture start, RMS volume, bounded frame channel),
ˑ `src/platform/{windows,macos}/mod.rs` (double-tap detection).

Rust strings are embedded as `List Char` (the code iterates with `chars()`,
character-wise, never byte-wise); `usize` arithmetic appears as `Nat`
(subtraction sites are proved not to underflow); atomics and spawned
threads appear as explicit fields of state records, updated in the order
the code performs its stores.
-/

namespace DoubaoIme

/-! ### Incremental diff: `update_text` in `src/business/voice_controller.rs`

`let common_prefix_len = old_text.chars().zip(new_text.chars())
   .take_while(|(a, b)| a == b).count();`
-/

/-- Character-wise common-prefix length, exactly the zip/take_while/count
of `update_text`. -/
def common_prefix_len : List Char → List Char → Nat
  | a :: as, b :: bs => if a = b then common_prefix_len as bs + 1 else 0
  | _, _ => 0

/-- `let chars_to_delete = old_text.chars().count() - common_prefix_len;`
(`usize` subtraction; `Nat` subtraction agrees because the prefix length
never exceeds the length of `old_text`, proved below). -/
def chars_to_delete (old new : List Char) : Nat :=
  old.length - common_prefix_len old new

/-- `let text_to_append: String = new_text.chars().skip(common_prefix_len).collect();` -/
def text_to_append (old new : List Char) : List Char :=
  new.drop (common_prefix_len old new)

/-- One request issued to the `TextInserter` capability
(`delete_chars(count)` or `insert(text)`). -/
inductive TextOp
  | delete (count : Nat)
  | insert (text : List Char)
  deriving DecidableEq

/-- The sequence of `TextInserter` calls `update_text` makes:
a delete when `chars_to_delete > 0`, then an insert when the append text
is non-empty. -/
def update_text (old new : List Char) : List TextOp :=
  (if chars_to_delete old new > 0 then [TextOp.delete (chars_to_delete old new)] else [])
    ++ (if text_to_append old new ≠ [] then [TextOp.insert (text_to_append old new)] else [])

theorem common_prefix_len_le_left : ∀ o n : List Char, common_prefix_len o n ≤ o.length
  | [], _ => by simp [common_prefix_len]
  | _ :: _, [] => by simp [common_prefix_len]
  | a :: as, b :: bs => by
    by_cases h : a = b
    · simp only [common_prefix_len, if_pos h, List.length_cons]
      exact Nat.succ_le_succ (common_prefix_len_le_left as bs)
    · simp [common_prefix_len, h]

theorem common_prefix_len_le_right : ∀ o n : List Char, common_prefix_len o n ≤ n.length
  | [], _ => by simp [common_prefix_len]
  | _ :: _, [] => by simp [common_prefix_len]
  | a :: as, b :: bs => by
    by_cases h : a = b
    · simp only [common_prefix_len, if_pos h, List.length_cons]
      exact Nat.succ_le_succ (common_prefix_len_le_right as bs)
    · simp [common_prefix_len, h]

theorem take_cpl_eq : ∀ o n : List Char,
    o.take (common_prefix_len o n) = n.take (common_prefix_len o n)
  | [], _ => by simp [common_prefix_len]
  | _ :: _, [] => by simp [common_prefix_len]
  | a :: as, b :: bs => by
    by_cases h : a = b
    · simp only [common_prefix_len, if_pos h, List.take_succ_cons]
      rw [h, take_cpl_eq as bs]
    · simp [common_prefix_len, h]

theorem le_cpl_of_take_eq : ∀ (o n : List Char) (k : Nat),
    k ≤ o.length → o.take k = n.take k → k ≤ common_prefix_len o n := by
  intro o
  induction o with
  | nil =>
    intro n k hk _
    have : k = 0 := by simpa using hk
    simp [this]
  | cons a as ih =>
    intro n k hk ht
    match k, n with
    | 0, _ => exact Nat.zero_le _
    | k + 1, [] => simp at ht
    | k + 1, b :: bs =>
      simp only [List.take_succ_cons, List.cons.injEq] at ht
      have hab : a = b := ht.1
      simp only [common_prefix_len, if_pos hab]
      exact Nat.succ_le_succ (ih bs k (Nat.le_of_succ_le_succ (by simpa using hk)) ht.2)

/-- C1: For every pair of strings, the diff computes the maximal character-wise
common-prefix length; the delete count is the character count of `old` minus
that length; the append text is the suffix of `new` after it; recombining
gives back `old` and `new`; and the two spec examples evaluate as stated. -/
theorem C1_update_text_diff (old new : List Char) (k : Nat)
    (hk1 : k ≤ old.length) (hk2 : old.take k = new.take k) :
    old.take (common_prefix_len old new) = new.take (common_prefix_len old new)
    ∧ k ≤ common_prefix_len old new
    ∧ chars_to_delete old new = old.length - common_prefix_len old new
    ∧ text_to_append old new = new.drop (common_prefix_len old new)
    ∧ (old.drop (common_prefix_len old new)).length = chars_to_delete old new
    ∧ old.take (common_prefix_len old new) ++ old.drop (common_prefix_len old new) = old
    ∧ old.take (common_prefix_len old new) ++ text_to_append old new = new
    ∧ common_prefix_len ['你', '好'] ['你', '好', '吗'] = 2
    ∧ chars_to_delete ['你', '好'] ['你', '好', '吗'] = 0
    ∧ text_to_append ['你', '好'] ['你', '好', '吗'] = ['吗']
    ∧ common_prefix_len ['你', '好', '吗'] ['你'] = 1
    ∧ chars_to_delete ['你', '好', '吗'] ['你'] = 2
    ∧ text_to_append ['你', '好', '吗'] ['你'] = [] := by
  refine ⟨take_cpl_eq old new, le_cpl_of_take_eq old new k hk1 hk2, rfl, rfl,
    by simp [chars_to_delete], List.take_append_drop _ _, ?_, by decide, by decide,
    by decide, by decide, by decide, by decide⟩
  rw [take_cpl_eq old new, text_to_append, List.take_append_drop]

/-- Witness for C1 at `old = ['a','b']`, `new = ['a','c']`, `k = 1`. -/
theorem C1_update_text_diff_witness :
    (['a', 'b'] : List Char).take (common_prefix_len ['a', 'b'] ['a', 'c'])
      = (['a', 'c'] : List Char).take (common_prefix_len ['a', 'b'] ['a', 'c'])
    ∧ 1 ≤ common_prefix_len ['a', 'b'] ['a', 'c'] := by
  have h := C1_update_text_diff ['a', 'b'] ['a', 'c'] 1 (by decide) (by decide)
  exact ⟨h.1, h.2.1⟩

/-- C10: The `usize` subtraction `old.chars().count() - common_prefix_len` in
`update_text` never underflows: the common-prefix length is at most the
character count of `old_text` (and of `new_text`), so the subtraction is exact
and `update_text` is total over all inputs. -/
theorem C10_no_underflow (old new : List Char) :
    common_prefix_len old new ≤ old.length
    ∧ common_prefix_len old new ≤ new.length
    ∧ common_prefix_len old new + chars_to_delete old new = old.length
    ∧ (update_text old new).length ≤ 2 :=
  ⟨common_prefix_len_le_left old new, common_prefix_len_le_right old new,
    Nat.add_sub_cancel' (common_prefix_len_le_left old new), by
      unfold update_text
      split <;> split <;> simp⟩

/-! ### ASR response loop of `VoiceController::start`
(`src/business/voice_controller.rs`, the `tokio::spawn` body)

The `ResponseType` enum lives in the `crate::asr` module, which is not under
`src/`; its variants are modelled from the match arms of the response loop
and spec section 6 (interim, final, session-finished, error, plus the
wildcard arm `_` for any other variant). -/

/-- Modelled from the spec: the tagged response kinds yielded by the
recognition collaborator (`crate::asr::ResponseType` is not under `src/`).
`Other` stands for every variant hitting the loop's wildcard arm. -/
inductive ResponseType
  | InterimResult
  | FinalResult
  | SessionFinished
  | Error
  | Other
  deriving DecidableEq

/-- Modelled from the spec: one recognition response (`text` is the
transcript fragment carried by interim and final results). -/
structure AsrResponse where
  response_type : ResponseType
  text : List Char
  deriving DecidableEq

/-- Observable effect of one iteration of the response loop on one received
response: the new `last_text` baseline, the invocations of the `on_result`
callback (argument pairs, in order), the `TextInserter` requests issued, and
whether the loop keeps running (`false` on the `break` arms). -/
structure StepResult where
  last_text : List Char
  calls : List (List Char × Bool)
  ops : List TextOp
  keep_running : Bool
  deriving DecidableEq

/-- One iteration of the `match response.response_type` in the spawned task,
with `last_text` the current baseline. The `on_result` callback is the one
installed via `set_on_result` (the `Option` wrapper dereferenced by
`if let Some(ref cb)`); `calls` records the arguments it is invoked with. -/
def process_response (last_text : List Char) (r : AsrResponse) : StepResult :=
  match r.response_type with
  | ResponseType.InterimResult =>
    if r.text ≠ [] then
      { last_text := r.text, calls := [(r.text, false)],
        ops := update_text last_text r.text, keep_running := true }
    else
      { last_text := last_text, calls := [(r.text, false)],
        ops := [], keep_running := true }
  | ResponseType.FinalResult =>
    if r.text ≠ [] then
      { last_text := [], calls := [(r.text, true)],
        ops := update_text last_text r.text, keep_running := true }
    else
      { last_text := last_text, calls := [(r.text, true)],
        ops := [], keep_running := true }
  | ResponseType.SessionFinished =>
    { last_text := last_text, calls := [], ops := [], keep_running := false }
  | ResponseType.Error =>
    { last_text := last_text, calls := [], ops := [], keep_running := false }
  | ResponseType.Other =>
    { last_text := last_text, calls := [], ops := [], keep_running := true }

/-- C3 counterexample: a final fragment with empty text does not reset the
baseline to empty and runs no diff update — the whole final-fragment body
beyond the callback sits inside `if !response.text.is_empty()`. -/
theorem C3_counterexample :
    (process_response ['你'] ⟨ResponseType.FinalResult, []⟩).last_text ≠ []
    ∧ (process_response ['你'] ⟨ResponseType.FinalResult, []⟩).last_text = ['你']
    ∧ (process_response ['你'] ⟨ResponseType.FinalResult, []⟩).ops = [] := by
  decide

/-- C3 amended: the callback fires exactly once per interim or final fragment
with the fragment's text and finality flag; a non-empty interim fragment runs
the diff against the baseline and replaces the baseline with its text; a
non-empty final fragment runs the diff and resets the baseline to empty; an
empty fragment (interim or final) only fires the callback, leaving the
baseline untouched and issuing no `TextInserter` request. -/
theorem C3_response_handling (last t : List Char) (ht : t ≠ []) :
    (process_response last ⟨ResponseType.InterimResult, t⟩).calls = [(t, false)]
    ∧ (process_response last ⟨ResponseType.FinalResult, t⟩).calls = [(t, true)]
    ∧ (process_response last ⟨ResponseType.InterimResult, []⟩).calls = [([], false)]
    ∧ (process_response last ⟨ResponseType.FinalResult, []⟩).calls = [([], true)]
    ∧ (process_response last ⟨ResponseType.InterimResult, t⟩).last_text = t
    ∧ (process_response last ⟨ResponseType.InterimResult, t⟩).ops = update_text last t
    ∧ (process_response last ⟨ResponseType.FinalResult, t⟩).last_text = []
    ∧ (process_response last ⟨ResponseType.FinalResult, t⟩).ops = update_text last t
    ∧ (process_response last ⟨ResponseType.InterimResult, []⟩).last_text = last
    ∧ (process_response last ⟨ResponseType.InterimResult, []⟩).ops = []
    ∧ (process_response last ⟨ResponseType.FinalResult, []⟩).last_text = last
    ∧ (process_response last ⟨ResponseType.FinalResult, []⟩).ops = []
    ∧ (process_response last ⟨ResponseType.InterimResult, t⟩).keep_running = true
    ∧ (process_response last ⟨ResponseType.FinalResult, t⟩).keep_running = true
    ∧ (process_response last ⟨ResponseType.SessionFinished, []⟩).keep_running = false
    ∧ (process_response last ⟨ResponseType.Error, []⟩).keep_running = false := by
  simp [process_response, ht]

/-- Witness for C3 at `last = ['你']`, `t = ['好']`. -/
theorem C3_response_handling_witness :
    (process_response ['你'] ⟨ResponseType.InterimResult, ['好']⟩).calls
      = [(['好'], false)]
    ∧ (process_response ['你'] ⟨ResponseType.FinalResult, ['好']⟩).last_text = [] := by
  have h := C3_response_handling ['你'] ['好'] (by decide)
  exact ⟨h.1, h.2.2.2.2.2.2.1⟩

/-! ### VoiceController state machine (`src/business/voice_controller.rs`)

Fields mirror the atomics and liveness facts of the code:
`vc_recording` is `VoiceController.is_recording`, `stop_signal` its
`stop_signal`, `ac_recording` is `AudioCapture.is_recording` (the condition
keeping the capture thread's loop alive), `worker_alive` whether the spawned
response-processing task (hence the recognition session consumer) exists. -/

structure VCState where
  vc_recording : Bool
  stop_signal : Bool
  ac_recording : Bool
  worker_alive : Bool
  deriving DecidableEq

/-- Fresh controller: both atomics false, no capture thread, no worker. -/
def VCState.idle : VCState :=
  { vc_recording := false, stop_signal := false,
    ac_recording := false, worker_alive := false }

/-- `VoiceController::start`. Returns the state plus `true` for `Ok(())` and
`false` for `Err` at each `?`. The stores happen in source order: early
return when already recording; `is_recording.store(true)`;
`stop_signal.store(false)`; `audio_capture.start()?` (fails exactly when the
capture flag is already set, else sets it and spawns the capture thread);
`asr_client.start_realtime(..).await?` — the ASR client module is not under
`src/`, so its success is the parameter `asr_ok` (spec section 6); on
success the response worker is spawned. -/
def VoiceController.start (asr_ok : Bool) (s : VCState) : VCState × Bool :=
  if s.vc_recording then (s, true)
  else
    let s1 : VCState := { s with vc_recording := true, stop_signal := false }
    if s1.ac_recording then (s1, false)
    else
      let s2 : VCState := { s1 with ac_recording := true }
      if asr_ok then ({ s2 with worker_alive := true }, true)
      else (s2, false)

/-- `VoiceController::stop`: early return when idle; otherwise set the stop
signal, `audio_capture.stop()` (clears the capture flag), sleep the grace
period, clear `is_recording`. Always returns `Ok(())`. -/
def VoiceController.stop (s : VCState) : VCState × Bool :=
  if !s.vc_recording then (s, true)
  else
    ({ s with stop_signal := true, ac_recording := false, vc_recording := false }, true)

/-- Cleanup run by the spawned worker when its loop exits by any path:
`audio_capture.stop()` then `is_recording.store(false)`; the task itself
terminates. -/
def VoiceController.worker_exit (s : VCState) : VCState :=
  { s with ac_recording := false, vc_recording := false, worker_alive := false }

/-- C2 counterexample: starting from the idle controller with the recognition
session failing to open, `start` returns an error yet leaves `is_recording()`
true while no recognition worker exists — the flag is stored before the
fallible opens, so "alive iff Recording" is violated right after `start`
returns. -/
theorem C2_counterexample :
    (VoiceController.start false VCState.idle).2 = false
    ∧ ¬ ((VoiceController.start false VCState.idle).1.vc_recording
          = ((VoiceController.start false VCState.idle).1.ac_recording
              && (VoiceController.start false VCState.idle).1.worker_alive)) := by
  decide

/-- C2 amended: after a successful `start` from an idle controller,
`is_recording()` is true and the capture thread and response worker are both
alive; after `stop` from a recording state and after worker cleanup,
`is_recording()` is false and capture is stopped; but when `start` returns an
error because the recognition session failed to open, `is_recording()`
remains true although no worker/session exists (the iff fails on the error
path until a later `stop`/`toggle` or worker cleanup clears the flag). -/
theorem C2_recording_invariant (s r : VCState)
    (h1 : s.vc_recording = false) (h2 : s.ac_recording = false)
    (h3 : r.vc_recording = true) :
    (VoiceController.start true s).2 = true
    ∧ (VoiceController.start true s).1.vc_recording = true
    ∧ (VoiceController.start true s).1.ac_recording = true
    ∧ (VoiceController.start true s).1.worker_alive = true
    ∧ (VoiceController.start false s).2 = false
    ∧ (VoiceController.start false s).1.vc_recording = true
    ∧ (VoiceController.start false s).1.worker_alive = s.worker_alive
    ∧ (VoiceController.stop r).1.vc_recording = false
    ∧ (VoiceController.stop r).1.ac_recording = false
    ∧ (VoiceController.worker_exit r).vc_recording = false
    ∧ (VoiceController.worker_exit r).ac_recording = false
    ∧ (VoiceController.worker_exit r).worker_alive = false := by
  simp [VoiceController.start, VoiceController.stop, VoiceController.worker_exit, h1, h2, h3]

/-- Witness for C2 amended, at the idle state and a recording state. -/
theorem C2_recording_invariant_witness :
    (VoiceController.start true VCState.idle).2 = true
    ∧ (VoiceController.start true VCState.idle).1.worker_alive = true := by
  have h := C2_recording_invariant VCState.idle
    { vc_recording := true, stop_signal := false,
      ac_recording := true, worker_alive := true }
    (by decide) (by decide) (by decide)
  exact ⟨h.1, h.2.2.2.1⟩

/-- C4: `start` while already recording and `stop` while already idle return
success immediately and leave the whole controller state unchanged, for any
outcome of the collaborators. -/
theorem C4_idempotence (s r : VCState) (asr_ok : Bool)
    (hs : s.vc_recording = true) (hr : r.vc_recording = false) :
    VoiceController.start asr_ok s = (s, true)
    ∧ VoiceController.stop r = (r, true) := by
  constructor
  · simp [VoiceController.start, hs]
  · simp [VoiceController.stop, hr]

/-- Witness for C4 at a recording state and the idle state. -/
theorem C4_idempotence_witness :
    VoiceController.start true
      { vc_recording := true, stop_signal := false,
        ac_recording := true, worker_alive := true }
      = ({ vc_recording := true, stop_signal := false,
           ac_recording := true, worker_alive := true }, true)
    ∧ VoiceController.stop VCState.idle = (VCState.idle, true) :=
  C4_idempotence
    { vc_recording := true, stop_signal := false,
      ac_recording := true, worker_alive := true }
    VCState.idle true (by decide) (by decide)

/-! ### DoubleTap detection
(`keyboard_hook_proc` in `src/platform/windows/mod.rs` and the
`NSFlagsChanged` monitor block in `src/platform/macos/mod.rs` — both run the
same remembered-timestamp algorithm)

Timestamps are `Nat` instants; `now - last` is `Instant`-style saturating
`duration_since` (the hook only ever compares a later release against an
earlier one). -/

/-- One qualifying key-release event: given the remembered timestamp
(`last_release` / `LAST_PRESS`) and the current instant, returns the new
remembered timestamp and whether the callback fired. Mirrors
`if let Some(last) = ... { if elapsed <= interval { callback(); last := None }
else { last := Some(now) } } else { last := Some(now) }`. -/
def on_release (interval : Nat) (last : Option Nat) (now : Nat) :
    Option Nat × Bool :=
  match last with
  | some t => if now - t ≤ interval then (none, true) else (some now, false)
  | none => (some now, false)

/-- Run a sequence of qualifying release instants through the hook state,
returning the final remembered timestamp and the number of callback
invocations. -/
def process_releases (interval : Nat) : Option Nat → List Nat → Option Nat × Nat
  | last, [] => (last, 0)
  | last, t :: ts =>
    let step := on_release interval last t
    let rest := process_releases interval step.1 ts
    (rest.1, (if step.2 then 1 else 0) + rest.2)

/-- C5: from a fresh hook state, two qualifying releases with gap within the
interval fire the callback exactly once and clear the remembered timestamp;
a release whose gap exceeds the interval fires nothing and becomes the new
remembered timestamp; three releases each within the interval of the previous
one fire exactly once, the first pair having consumed the pending state (the
third release re-arms). -/
theorem C5_double_tap (i t1 t2 t3 u1 u2 : Nat)
    (h12 : t2 - t1 ≤ i) (h23 : t3 - t2 ≤ i) (hu : i < u2 - u1) :
    process_releases i none [t1, t2] = (none, 1)
    ∧ process_releases i none [u1, u2] = (some u2, 0)
    ∧ process_releases i none [t1, t2, t3] = (some t3, 1) := by
  have p0 : ∀ t : Nat, on_release i none t = (some t, false) := fun _ => rfl
  have p12 : on_release i (some t1) t2 = (none, true) := by
    simp only [on_release]; rw [if_pos h12]
  have p23 : on_release i (some t2) t3 = (none, true) := by
    simp only [on_release]; rw [if_pos h23]
  have pu : on_release i (some u1) u2 = (some u2, false) := by
    simp only [on_release]; rw [if_neg (not_le.mpr hu)]
  refine ⟨?_, ?_, ?_⟩
  · simp [process_releases, p0, p12]
  · simp [process_releases, p0, pu]
  · simp [process_releases, p0, p12, p23]

/-- Witness for C5 at interval 10 with releases 0, 5, 9 and 0, 20. -/
theorem C5_double_tap_witness :
    process_releases 10 none [0, 5] = (none, 1)
    ∧ process_releases 10 none [0, 20] = (some 20, 0)
    ∧ process_releases 10 none [0, 5, 9] = (some 9, 1) :=
  C5_double_tap 10 0 5 9 0 20 (by decide) (by decide) (by decide)

/-! ### HotkeyManager (`src/business/hotkey_manager.rs`)

A provider instance is abstracted to what the manager observes of it:
whether `stop()` has been called on it and which callback (identified by a
number) is bound via `on_trigger`. Provider construction
(`PlatformFactory::create_hotkey_provider(config)?`) is platform code whose
outcome enters as an `Except` parameter. -/

structure Provider where
  stopped : Bool
  bound : Option Nat
  deriving DecidableEq

structure HMState where
  provider : Provider
  callback : Option Nat
  deriving DecidableEq

/-- `HotkeyManager::on_trigger`: store the callback for re-binding, then bind
it to the current provider. -/
def HotkeyManager.on_trigger (m : HMState) (cb : Nat) : HMState :=
  { provider := { m.provider with bound := some cb }, callback := some cb }

/-- The re-binding step of `update_config`: bind the stored callback to the
new provider when one is stored. -/
def bind_stored (cb : Option Nat) (p : Provider) : Provider :=
  match cb with
  | some c => { p with bound := some c }
  | none => p

/-- `HotkeyManager::update_config`, inside the single `provider.lock()`
scope: stop the old provider; construct the new one (outcome `new_prov`, the
`?` propagating its error); re-bind the stored callback; replace the
provider. On error the old provider stays in place, stopped. -/
def HotkeyManager.update_config (new_prov : Except Unit Provider) (m : HMState) :
    HMState × Except Unit Unit :=
  let stopped_old : Provider := { m.provider with stopped := true }
  match new_prov with
  | Except.error _ => ({ m with provider := stopped_old }, Except.error ())
  | Except.ok p => ({ m with provider := bind_stored m.callback p }, Except.ok ())

/-- `HotkeyManager::stop`: stop the active provider. -/
def HotkeyManager.stop (m : HMState) : HMState :=
  { m with provider := { m.provider with stopped := true } }

/-- C6: on successful construction `update_config` swaps in the new provider
with the stored callback re-bound (the most recent one registered through
`on_trigger`) and returns success; on construction failure it returns the
error and the old provider remains in place, stopped, with the stored
callback untouched. -/
theorem C6_update_config (m : HMState) (p : Provider) (cb : Nat) :
    (HotkeyManager.update_config (Except.ok p) m).1.provider
        = bind_stored m.callback p
    ∧ (HotkeyManager.update_config (Except.ok p) m).1.provider.stopped = p.stopped
    ∧ (HotkeyManager.update_config (Except.ok p) m).1.callback = m.callback
    ∧ (HotkeyManager.update_config (Except.ok p) m).2 = Except.ok ()
    ∧ (HotkeyManager.update_config (Except.ok p)
          (HotkeyManager.on_trigger m cb)).1.provider.bound = some cb
    ∧ (HotkeyManager.update_config (Except.error ()) m).1.provider
        = { m.provider with stopped := true }
    ∧ (HotkeyManager.update_config (Except.error ()) m).1.callback = m.callback
    ∧ (HotkeyManager.update_config (Except.error ()) m).2 = Except.error () := by
  refine ⟨rfl, ?_, rfl, rfl, ?_, rfl, rfl, rfl⟩
  · cases h : m.callback <;> simp [HotkeyManager.update_config, bind_stored, h]
  · simp [HotkeyManager.update_config, HotkeyManager.on_trigger, bind_stored]

/-! ### AudioCapture (`src/audio/capture.rs`) -/

/-- What `AudioCapture::start` observes and changes: the atomic
`is_recording` flag and whether the dedicated capture thread exists. -/
structure ACState where
  is_recording : Bool
  thread_alive : Bool
  deriving DecidableEq

/-- `AudioCapture::start`: `if self.is_recording.swap(true) { return
Err(anyhow!("Already recording")) }` — the swap leaves the flag set and
nothing else changes; otherwise the flag is now true, the capture thread is
spawned, and the bounded `tokio_mpsc::channel::<Vec<u8>>(100)` receiver is
returned (represented by its capacity). `Except.error ()` stands for the
AlreadyRecording error. -/
def AudioCapture.start (s : ACState) : ACState × Except Unit Nat :=
  if s.is_recording then (s, Except.error ())
  else ({ is_recording := true, thread_alive := true }, Except.ok 100)

/-- C7: calling `start` while the recording flag is set returns the
AlreadyRecording error and leaves the flag set (state unchanged); otherwise
it sets the flag, spawns the capture thread, and returns the bounded
channel of encoded frames (capacity 100). -/
theorem C7_capture_start (s r : ACState)
    (hs : s.is_recording = true) (hr : r.is_recording = false) :
    AudioCapture.start s = (s, Except.error ())
    ∧ (AudioCapture.start s).1.is_recording = true
    ∧ AudioCapture.start r
        = ({ is_recording := true, thread_alive := true }, Except.ok 100) := by
  refine ⟨?_, ?_, ?_⟩ <;> simp [AudioCapture.start, hs, hr]

/-- Witness for C7 at a recording state and a fresh state. -/
theorem C7_capture_start_witness :
    AudioCapture.start { is_recording := true, thread_alive := true }
      = ({ is_recording := true, thread_alive := true }, Except.error ())
    ∧ AudioCapture.start { is_recording := false, thread_alive := false }
      = ({ is_recording := true, thread_alive := true }, Except.ok 100) := by
  have h := C7_capture_start
    { is_recording := true, thread_alive := true }
    { is_recording := false, thread_alive := false } (by decide) (by decide)
  exact ⟨h.1, h.2.2⟩

/-! ### Bounded frame channel with drop policy
(`run_audio_capture`, `tokio_tx.try_send(opus_frame)`)

The channel is a queue of at most `cap` frames (no consumer runs during the
window modelled here, the worst case for backpressure). `try_send` succeeds
iff the queue holds fewer than `cap` items; on failure the frame is dropped
and the loop moves on to the next frame. -/

/-- `tokio_tx.try_send(frame)`: enqueue when below capacity, else drop. -/
def try_send {α : Type} (cap : Nat) (q : List α) (x : α) : List α :=
  if q.length < cap then q ++ [x] else q

/-- The capture loop pushing a burst of encoded frames, in production order,
through `try_send`. -/
def send_all {α : Type} (cap : Nat) (q : List α) (frames : List α) : List α :=
  frames.foldl (try_send cap) q

theorem send_all_split {α : Type} (cap : Nat) :
    ∀ (frames q : List α), ∃ kept, List.Sublist kept frames
      ∧ send_all cap q frames = q ++ kept := by
  intro frames
  induction frames with
  | nil =>
    intro q
    exact ⟨[], List.nil_sublist [], by simp [send_all]⟩
  | cons x xs ih =>
    intro q
    by_cases hq : q.length < cap
    · obtain ⟨kept, hs, he⟩ := ih (q ++ [x])
      refine ⟨x :: kept, List.Sublist.cons₂ x hs, ?_⟩
      have step : send_all cap q (x :: xs) = send_all cap (q ++ [x]) xs := by
        simp [send_all, try_send, hq]
      rw [step, he, List.append_assoc]
      rfl
    · obtain ⟨kept, hs, he⟩ := ih q
      refine ⟨kept, List.Sublist.cons x hs, ?_⟩
      have step : send_all cap q (x :: xs) = send_all cap q xs := by
        simp [send_all, try_send, hq]
      rw [step, he]

theorem send_all_len {α : Type} (cap : Nat) :
    ∀ (frames q : List α), q.length ≤ cap → (send_all cap q frames).length ≤ cap := by
  intro frames
  induction frames with
  | nil =>
    intro q hq
    simpa [send_all] using hq
  | cons x xs ih =>
    intro q hq
    by_cases hlt : q.length < cap
    · have step : send_all cap q (x :: xs) = send_all cap (q ++ [x]) xs := by
        simp [send_all, try_send, hlt]
      rw [step]
      exact ih (q ++ [x]) (by simpa using hlt)
    · have step : send_all cap q (x :: xs) = send_all cap q xs := by
        simp [send_all, try_send, hlt]
      rw [step]
      exact ih q hq

/-- C9: under a saturated (or any) channel state the loop keeps processing —
the step over one frame is `try_send` followed by the rest of the burst, and
a full queue leaves the queue unchanged (frame dropped, no blocking); the
frames that do get enqueued are appended after the existing queue as a
sublist of the produced burst, i.e. in production order with no reordering;
and the queue never exceeds the capacity. -/
theorem C9_backpressure {α : Type} (cap : Nat) (q full : List α)
    (x : α) (frames : List α) (hq : q.length ≤ cap) (hfull : full.length = cap) :
    send_all cap q (x :: frames) = send_all cap (try_send cap q x) frames
    ∧ try_send cap full x = full
    ∧ (∃ kept, List.Sublist kept frames
        ∧ send_all cap q frames = q ++ kept
        ∧ (send_all cap q frames).length ≤ cap) := by
  refine ⟨rfl, ?_, ?_⟩
  · simp [try_send, hfull]
  · obtain ⟨kept, hs, he⟩ := send_all_split cap frames q
    exact ⟨kept, hs, he, send_all_len cap frames q hq⟩

/-- Witness for C9 at capacity 2, empty queue, burst `[1, 2, 3]`. -/
theorem C9_backpressure_witness :
    send_all 2 ([] : List Nat) (1 :: [2, 3]) = send_all 2 (try_send 2 [] 1) [2, 3]
    ∧ try_send 2 [10, 20] (3 : Nat) = [10, 20]
    ∧ (∃ kept, List.Sublist kept [2, 3]
        ∧ send_all 2 ([] : List Nat) [2, 3] = [] ++ kept
        ∧ (send_all 2 ([] : List Nat) [2, 3]).length ≤ 2) := by
  have h := C9_backpressure 2 ([] : List Nat) [10, 20] 1 [2, 3] (by decide) (by decide)
  exact ⟨h.1, by decide, h.2.2⟩

/-! ### RMS volume meter (`run_audio_capture`, "Calculate RMS Volume")

The `f64` arithmetic is modelled over the reals; the `as u32` cast of the
non-negative, already-clamped value truncates toward zero, i.e. is the
floor. Samples are the `i16` values of the mono frame, embedded in `ℤ`. -/

/-- `let rms = if !mono_frame.is_empty() { (sum_sq / len).sqrt() } else { 0.0 };`
with `sum_sq` the sum of `(s as f64) * (s as f64)` over the mono frame. -/
noncomputable def rms (frame : List ℤ) : ℝ :=
  if frame ≠ [] then
    Real.sqrt ((frame.map (fun s : ℤ => (s : ℝ) * (s : ℝ))).sum / frame.length)
  else 0

/-- `let vol = (rms / 100.0).min(100.0) as u32;` -/
noncomputable def volume (frame : List ℤ) : ℕ :=
  ⌊min (rms frame / 100) 100⌋₊

/-- `current_volume` after a burst of processed mono frames: starts at 0
(`AtomicU32::new(0)`), overwritten by `store(vol)` once per frame;
`get_volume` loads the last stored value. -/
noncomputable def get_volume (frames : List (List ℤ)) : ℕ :=
  frames.foldl (fun _ f => volume f) 0

theorem volume_le_100 (frame : List ℤ) : volume frame ≤ 100 := by
  have h : min (rms frame / 100) 100 ≤ (100 : ℝ) := min_le_right _ _
  calc volume frame ≤ ⌊(100 : ℝ)⌋₊ := Nat.floor_le_floor h
    _ = 100 := by simp

theorem volume_silent (n : ℕ) : volume (List.replicate n (0 : ℤ)) = 0 := by
  have hr : rms (List.replicate n (0 : ℤ)) = 0 := by
    unfold rms
    split
    · simp only [List.map_replicate, Int.cast_zero, mul_zero, List.sum_replicate,
        smul_zero, zero_div, Real.sqrt_zero]
    · rfl
  unfold volume
  rw [hr]
  rw [zero_div, min_eq_left (by norm_num : (0 : ℝ) ≤ 100)]
  exact Nat.floor_zero

theorem volume_full_scale (n : ℕ) (hn : 0 < n) :
    volume (List.replicate n (32767 : ℤ)) = 100 := by
  have hne : List.replicate n (32767 : ℤ) ≠ [] :=
    List.ne_nil_of_length_pos (by simpa using hn)
  have hr : rms (List.replicate n (32767 : ℤ)) = 32767 := by
    unfold rms
    rw [if_pos hne]
    have hmap : (List.replicate n (32767 : ℤ)).map (fun s : ℤ => (s : ℝ) * (s : ℝ))
        = List.replicate n ((32767 : ℝ) * 32767) := by
      rw [List.map_replicate]
      norm_num
    rw [hmap, List.sum_replicate, nsmul_eq_mul, List.length_replicate]
    rw [mul_div_cancel_left₀ _ (by exact_mod_cast hn.ne' : (n : ℝ) ≠ 0)]
    exact Real.sqrt_mul_self (by norm_num)
  unfold volume
  rw [hr, min_eq_right (by norm_num : (100 : ℝ) ≤ 32767 / 100)]
  simp

theorem get_volume_le_100 (frames : List (List ℤ)) : get_volume frames ≤ 100 := by
  have aux : ∀ (fs : List (List ℤ)) (v : ℕ), v ≤ 100 →
      fs.foldl (fun _ f => volume f) v ≤ 100 := by
    intro fs
    induction fs with
    | nil => intro v hv; simpa using hv
    | cons f fs ih =>
      intro v _
      exact ih (volume f) (volume_le_100 f)
  exact aux frames 0 (by norm_num)

/-- C8: for every mono frame the computed and stored volume is an integer in
[0, 100] (it is a `ℕ`, and at most 100); the empty frame and any all-zero
frame yield 0; any non-empty full-scale frame (all samples at the `i16`
maximum 32767) yields 100; and `get_volume` reads a value at most 100 after
any burst of frames. -/
theorem C8_volume_range (frame : List ℤ) (frames : List (List ℤ)) (n : ℕ)
    (hn : 0 < n) :
    volume frame ≤ 100
    ∧ volume [] = 0
    ∧ volume (List.replicate n (0 : ℤ)) = 0
    ∧ volume (List.replicate n (32767 : ℤ)) = 100
    ∧ get_volume frames ≤ 100 :=
  ⟨volume_le_100 frame, by simpa using volume_silent 0, volume_silent n,
    volume_full_scale n hn, get_volume_le_100 frames⟩

/-- Witness for C8 at `frame = [5]`, one processed frame, `n = 1`. -/
theorem C8_volume_range_witness :
    volume [(5 : ℤ)] ≤ 100
    ∧ volume (List.replicate 1 (32767 : ℤ)) = 100 := by
  have h := C8_volume_range [(5 : ℤ)] [[(5 : ℤ)]] 1 (by norm_num)
  exact ⟨h.1, h.2.2.2.1⟩
